import Mathlib

/-!
Verification of the FourTenMarkets quoting / settlement core.

Shallow embedding of the engine code:
  * `src/lib/odds-utils.ts`        — OddsMath conversions
  * `src/lib/pricing-engine.ts`    — single-bet Accept/Counter/Reject engine
  * `src/lib/parlay-engine.ts`     — parlay leg pricing and combination
  * `src/lib/settlement-engine.ts` — settlement of bets and parlays

JavaScript `number` arithmetic is modelled over `ℚ` (the computations the
claims depend on are exact over the rationals; `Math.round(x)` is
`⌊x + 1/2⌋`, and `toFixed(2)` on the nonnegative amounts produced here is
rounding at cents).  I/O lookups (Redis/Prisma) become explicit arguments:
the current daily stake, the consensus odds (`Option ℤ`, `none` = no data),
and the current exposure are passed in, mirroring the values the engine
reads before its single deterministic decision pass.
-/

namespace FourTen

/-- JavaScript `Math.round`: round half toward +∞, i.e. `⌊x + 1/2⌋`. -/
def jsRound (x : ℚ) : ℤ := ⌊x + 1/2⌋

/-- `Number(x.toFixed(2))` for the nonnegative monetary amounts used by the
engine: round to the nearest cent. -/
def toFixed2 (x : ℚ) : ℚ := (jsRound (x * 100) : ℚ) / 100

/-! ## OddsMath (`src/lib/odds-utils.ts`) -/

/-- `americanToDecimal`: American odds → decimal odds.
`if (american >= 100) return american / 100 + 1; else return 100 / Math.abs(american) + 1;` -/
def americanToDecimal (american : ℚ) : ℚ :=
  if american ≥ 100 then american / 100 + 1 else 100 / |american| + 1

/-- `decimalToAmerican`: decimal odds → American odds.
`if (decimal >= 2) return Math.round((decimal - 1) * 100); else return Math.round(-100 / (decimal - 1));` -/
def decimalToAmerican (decimal : ℚ) : ℤ :=
  if decimal ≥ 2 then jsRound ((decimal - 1) * 100) else jsRound (-100 / (decimal - 1))

/-- `oddsToImpliedProb`: American odds → implied probability (no vig). -/
def oddsToImpliedProb (american : ℚ) : ℚ := 1 / americanToDecimal american

/-- `impliedProbToOdds`: implied probability → American odds. -/
def impliedProbToOdds (prob : ℚ) : ℤ := decimalToAmerican (1 / prob)

/-- `applyMargin`: inflate the implied probability by a fraction `margin` of
itself, capped at 0.95, and convert back to American odds. -/
def applyMargin (american : ℚ) (margin : ℚ) : ℤ :=
  let impliedProb := oddsToImpliedProb american
  let withMargin := impliedProb + impliedProb * margin
  impliedProbToOdds (min withMargin (95/100))

/-- `calcPayout`: total return (stake included), rounded to cents. -/
def calcPayout (stake : ℚ) (american : ℚ) : ℚ :=
  toFixed2 (stake * americanToDecimal american)

/-- `calcProfit`: payout minus stake, rounded to cents. -/
def calcProfit (stake : ℚ) (american : ℚ) : ℚ :=
  toFixed2 (calcPayout stake american - stake)

/-- Valid American odds: integral magnitude at least 100. -/
def ValidOdds (o : ℤ) : Prop := 100 ≤ o ∨ o ≤ -100

instance : DecidablePred ValidOdds := fun o => by unfold ValidOdds; infer_instance

/-! ## PricingEngine (`src/lib/pricing-engine.ts`)

Constants from the source, then the single-bet engine.  The Redis/DB reads
(`getDailyStake`, `getConsensusOdds`, `getCurrentExposure`) are passed as
arguments; the engine performs one deterministic pass over them. -/

def EDGE_ACCEPT_THRESHOLD : ℚ := 2/100
def EDGE_COUNTER_THRESHOLD : ℚ := -(5/100)
def PLATFORM_MARGIN : ℚ := 4/100
def MAX_SELECTION_EXPOSURE : ℚ := 50000
def EXPOSURE_WARN_FRACTION : ℚ := 9/10
def MAX_BET_STAKE : ℚ := 5000
def MAX_DAILY_STAKE : ℚ := 25000

inductive PricingDecision
  | ACCEPT
  | COUNTER
  | REJECT
deriving DecidableEq, Repr

structure PricingResult where
  decision : PricingDecision
  acceptedOdds : ℚ
  potentialPayout : ℚ
  rejectReason : Option String
  counterReason : Option String
deriving DecidableEq, Repr

/-- `roundToNearest5`: `Math.round(american / 5) * 5`. -/
def roundToNearest5 (american : ℚ) : ℤ := jsRound (american / 5) * 5

/-- `counterOffer` helper: counter at the consensus price with the platform
margin applied, rounded to the nearest 5 American points. -/
def counterOffer (_requestedOdds stake : ℚ) (consensusOdds : ℚ)
    (reason : Option String) : PricingResult :=
  let fairProb := oddsToImpliedProb consensusOdds
  let counterOdds : ℤ := roundToNearest5 (applyMargin (impliedProbToOdds fairProb) PLATFORM_MARGIN)
  { decision := .COUNTER
    acceptedOdds := counterOdds
    potentialPayout := calcPayout stake counterOdds
    rejectReason := none
    counterReason := some (reason.getD "Best available") }

/-- `reject` helper. -/
def reject (reason : String) : PricingResult :=
  { decision := .REJECT, acceptedOdds := 0, potentialPayout := 0
    rejectReason := some reason, counterReason := none }

/-- `evaluateBetRequest`: the single-bet pricing pass.  `dailyStake`,
`consensus` (the consensus odds lookup result, `none` when no data is
available) and `currentExposure` stand for the values read from
Redis/Postgres for this user and selection. -/
def evaluateBetRequest (dailyStake : ℚ) (consensus : Option ℤ)
    (currentExposure : ℚ) (requestedOdds : ℚ) (stake : ℚ) : PricingResult :=
  if stake > MAX_BET_STAKE then
    reject "Maximum single bet stake exceeded"
  else if dailyStake + stake > MAX_DAILY_STAKE then
    reject "Daily stake limit reached"
  else
    match consensus with
    | none =>
        counterOffer requestedOdds stake (-110)
          (some "No consensus odds available - offering standard line")
    | some consensusOdds =>
        let userImpliedProb := oddsToImpliedProb requestedOdds
        let consensusImpliedProb := oddsToImpliedProb (consensusOdds : ℚ)
        let edge := userImpliedProb - consensusImpliedProb
        let newLiability := calcPayout stake requestedOdds - stake
        let projectedExposure := currentExposure + newLiability
        if projectedExposure > MAX_SELECTION_EXPOSURE then
          reject "Market exposure limit reached for this selection"
        else
          let nearCapacity := projectedExposure > MAX_SELECTION_EXPOSURE * EXPOSURE_WARN_FRACTION
          if edge ≥ EDGE_ACCEPT_THRESHOLD ∧ ¬nearCapacity then
            { decision := .ACCEPT
              acceptedOdds := requestedOdds
              potentialPayout := calcPayout stake requestedOdds
              rejectReason := none
              counterReason := none }
          else if edge ≥ EDGE_COUNTER_THRESHOLD ∨ nearCapacity then
            counterOffer requestedOdds stake (consensusOdds : ℚ)
              (if nearCapacity then some "Near exposure limit - best available odds" else none)
          else
            reject "Requested odds are too far above market consensus"

/-- Projected exposure for a request, as computed by the engine:
current exposure plus (payout − stake). -/
def projectedExposure (currentExposure requestedOdds stake : ℚ) : ℚ :=
  currentExposure + (calcPayout stake requestedOdds - stake)

/-! ## ParlayEngine (`src/lib/parlay-engine.ts`)

Selections are identified by `ℕ`; the consensus lookup becomes a function
`ℕ → Option ℤ` passed to `evaluateParlayRequest`. -/

structure ParlayLegInput where
  selectionId : ℕ
  requestedOdds : ℚ
deriving DecidableEq, Repr

structure ParlayLegResult where
  selectionId : ℕ
  requestedOdds : ℚ
  decision : PricingDecision
  acceptedOdds : ℚ
  reason : Option String
deriving DecidableEq, Repr

structure ParlayResult where
  decision : PricingDecision
  legs : List ParlayLegResult
  combinedOdds : ℤ
  potentialPayout : ℚ
  rejectReason : Option String
deriving DecidableEq, Repr

/-- `priceLeg`: one parlay leg priced against its consensus odds with the
continuous-interpolation counter model. -/
def priceLeg (requestedOdds : ℚ) (consensusOdds : ℤ) : ParlayLegResult :=
  let userProb := oddsToImpliedProb requestedOdds
  let consensusProb := oddsToImpliedProb (consensusOdds : ℚ)
  let edge := userProb - consensusProb
  if edge ≥ EDGE_ACCEPT_THRESHOLD then
    { selectionId := 0, requestedOdds, decision := .ACCEPT
      acceptedOdds := requestedOdds, reason := none }
  else if edge ≥ EDGE_COUNTER_THRESHOLD then
    let edgeRange := EDGE_ACCEPT_THRESHOLD - EDGE_COUNTER_THRESHOLD
    let position := max 0 (min 1 ((edge - EDGE_COUNTER_THRESHOLD) / edgeRange))
    let targetProb := consensusProb + position * (userProb - consensusProb)
    let rawOdds : ℤ := impliedProbToOdds targetProb
    let roundedOdds : ℤ := jsRound ((rawOdds : ℚ) / 5) * 5
    let counterOdds : ℤ := max consensusOdds roundedOdds
    { selectionId := 0, requestedOdds, decision := .COUNTER
      acceptedOdds := counterOdds, reason := some "Best available" }
  else
    { selectionId := 0, requestedOdds, decision := .REJECT
      acceptedOdds := 0
      reason := some "Requested odds are too far above market consensus" }

/-- The countered leg price as the spec describes it: compute
`position = clamp((edge − counterThreshold) / (acceptThreshold − counterThreshold), 0, 1)`,
interpolate the probability linearly from the consensus probability toward
the requested probability by `position`, convert back to American odds,
round to the nearest 5, and floor the result at the consensus price.
Stated from the spec's words, to be compared with `priceLeg`. -/
def interpolatedCounterOdds (o : ℚ) (c : ℤ) : ℤ :=
  let userProb := oddsToImpliedProb o
  let consensusProb := oddsToImpliedProb (c : ℚ)
  let edge := userProb - consensusProb
  let position := max 0 (min 1 ((edge - EDGE_COUNTER_THRESHOLD) /
    (EDGE_ACCEPT_THRESHOLD - EDGE_COUNTER_THRESHOLD)))
  let targetProb := consensusProb + position * (userProb - consensusProb)
  max c (jsRound ((impliedProbToOdds targetProb : ℚ) / 5) * 5)

/-- `rejectParlay` helper. -/
def rejectParlay (reason : String) : ParlayResult :=
  { decision := .REJECT, legs := [], combinedOdds := 0, potentialPayout := 0
    rejectReason := some reason }

/-- The per-leg result list built by the pricing loop of
`evaluateParlayRequest`: legs without consensus data are COUNTERed at −110,
the rest go through `priceLeg`. -/
def priceLegs (getConsensusOdds : ℕ → Option ℤ) (legs : List ParlayLegInput) :
    List ParlayLegResult :=
  legs.map fun leg =>
    match getConsensusOdds leg.selectionId with
    | none =>
        { selectionId := leg.selectionId
          requestedOdds := leg.requestedOdds
          decision := .COUNTER
          acceptedOdds := -110
          reason := some "No consensus odds - standard line applied" }
    | some consensusOdds =>
        { priceLeg leg.requestedOdds consensusOdds with selectionId := leg.selectionId }

/-- `evaluateParlayRequest`: validation, per-leg pricing, and combination.
`dailyStake` and `getConsensusOdds` stand for the Redis/DB reads. -/
def evaluateParlayRequest (dailyStake : ℚ) (getConsensusOdds : ℕ → Option ℤ)
    (legs : List ParlayLegInput) (stake : ℚ) : ParlayResult :=
  if legs.length < 2 then
    rejectParlay "Parlays require at least 2 legs"
  else if legs.length > 12 then
    rejectParlay "Parlays are limited to 12 legs"
  else if stake > MAX_BET_STAKE then
    rejectParlay "Maximum parlay stake exceeded"
  else if (legs.map (·.selectionId)).dedup.length ≠ legs.length then
    rejectParlay "Duplicate selections are not allowed in a parlay"
  else if dailyStake + stake > MAX_DAILY_STAKE then
    rejectParlay "Daily stake limit reached"
  else
    let legResults := priceLegs getConsensusOdds legs
    match legResults.find? (·.decision = .REJECT) with
    | some rejectedLeg =>
        { decision := .REJECT
          legs := legResults
          combinedOdds := 0
          potentialPayout := 0
          rejectReason := some (rejectedLeg.reason.getD "One or more legs were rejected") }
    | none =>
        let combinedDecimal := legResults.foldl (fun acc leg => acc * americanToDecimal leg.acceptedOdds) 1
        let combinedOdds := decimalToAmerican combinedDecimal
        let potentialPayout := toFixed2 (stake * combinedDecimal)
        let overallDecision : PricingDecision :=
          if legResults.any (·.decision = .COUNTER) then .COUNTER else .ACCEPT
        { decision := overallDecision
          legs := legResults
          combinedOdds
          potentialPayout
          rejectReason := none }

/-! ## SettlementEngine (`src/lib/settlement-engine.ts`)

The Prisma rows become lists in an explicit state; users are identified by
`ℕ` and a user "has a wallet" iff their id is a key of `wallets`.  Database
writes are modelled as always succeeding; the one failure the source checks
for explicitly — a bet or parlay whose user has no wallet — is modelled
exactly where the source checks it. -/

inductive SettleResult
  | WON
  | LOST
  | VOID
deriving DecidableEq, Repr

inductive BetStatus
  | ACTIVE
  | WON
  | LOST
  | VOIDED
deriving DecidableEq, Repr

inductive LegResult
  | PENDING
  | WON
  | LOST
  | VOID
deriving DecidableEq, Repr

inductive ParlayStatus
  | PENDING
  | ACTIVE
  | WON
  | LOST
  | VOIDED
deriving DecidableEq, Repr

inductive TxnType
  | BET_PAYOUT
  | BET_REFUND
deriving DecidableEq, Repr

structure Wallet where
  balance : ℚ
  lockedBalance : ℚ
deriving DecidableEq, Repr

structure Bet where
  id : ℕ
  userId : ℕ
  selectionId : ℕ
  stake : ℚ
  odds : ℚ
  potentialPayout : ℚ
  status : BetStatus
deriving DecidableEq, Repr

structure ParlayLeg where
  selectionId : ℕ
  acceptedOdds : ℚ
  result : LegResult
deriving DecidableEq, Repr

structure Parlay where
  id : ℕ
  userId : ℕ
  stake : ℚ
  potentialPayout : ℚ
  status : ParlayStatus
  legs : List ParlayLeg
deriving DecidableEq, Repr

structure Settlement where
  betId : ℕ
  result : SettleResult
  payout : ℚ
deriving DecidableEq, Repr

structure Txn where
  walletUserId : ℕ
  type : TxnType
  amount : ℚ
  reference : ℕ
deriving DecidableEq, Repr

structure SettleState where
  bets : List Bet
  parlays : List Parlay
  wallets : List (ℕ × Wallet)
  settlements : List Settlement
  transactions : List Txn
  exposure : ℕ → ℚ
  positions : ℕ → ℚ

structure SettlementSummary where
  settled : ℕ
  totalPaid : ℚ
  errors : List String
deriving DecidableEq, Repr

/-- Wallet lookup by user id (`bet.user?.wallet`). -/
def lookupWallet (ws : List (ℕ × Wallet)) (uid : ℕ) : Option Wallet :=
  (ws.find? (·.1 = uid)).map (·.2)

/-- Apply `f` to the wallet of user `uid` (`prisma.wallet.update`). -/
def updateWallet (ws : List (ℕ × Wallet)) (uid : ℕ) (f : Wallet → Wallet) :
    List (ℕ × Wallet) :=
  ws.map fun p => if p.1 = uid then (p.1, f p.2) else p

/-- Set the status of bet `betId` (`prisma.bet.update`). -/
def updateBetStatus (bets : List Bet) (betId : ℕ) (s : BetStatus) : List Bet :=
  bets.map fun b => if b.id = betId then { b with status := s } else b

/-- Set the status (and, for WON, the recalculated payout) of parlay
`parlayId` (`prisma.parlay.update`). -/
def updateParlay (ps : List Parlay) (parlayId : ℕ) (s : ParlayStatus)
    (payout : Option ℚ) : List Parlay :=
  ps.map fun p =>
    if p.id = parlayId then
      { p with status := s, potentialPayout := payout.getD p.potentialPayout }
    else p

/-- Bet status written for each settlement result
(`result === "WON" ? "WON" : result === "VOID" ? "VOIDED" : "LOST"`). -/
def betStatusOf : SettleResult → BetStatus
  | .WON => .WON
  | .VOID => .VOIDED
  | .LOST => .LOST

/-- Leg result written for each settlement result
(`result === "WON" ? "WON" : result === "VOID" ? "VOID" : "LOST"`). -/
def legOutcomeOf : SettleResult → LegResult
  | .WON => .WON
  | .VOID => .VOID
  | .LOST => .LOST

/-- Payout computed for a single bet:
WON ⇒ `calcPayout(stake, odds)`, VOID ⇒ `stake`, LOST ⇒ 0. -/
def settlePayout (result : SettleResult) (stake odds : ℚ) : ℚ :=
  match result with
  | .WON => calcPayout stake odds
  | .VOID => stake
  | .LOST => 0

/-- Body of the per-bet loop of `settleEvent` (lines 51–121): write the
settlement record and the bet status, then — if the user has a wallet —
move funds, record the transaction, decrement the selection's exposure and
bump the summary; a missing wallet is recorded as an error and the loop
continues. -/
def settleBetStep (sid : ℕ) (result : SettleResult)
    (acc : SettleState × SettlementSummary) (bet : Bet) :
    SettleState × SettlementSummary :=
  let (st, sum) := acc
  let payout := settlePayout result bet.stake bet.odds
  let st := { st with
    settlements := st.settlements ++ [⟨bet.id, result, payout⟩]
    bets := updateBetStatus st.bets bet.id (betStatusOf result) }
  match lookupWallet st.wallets bet.userId with
  | none => (st, { sum with errors := sum.errors ++ ["No wallet for user"] })
  | some _ =>
      let st :=
        if payout > 0 then
          { st with
            wallets := updateWallet st.wallets bet.userId fun w =>
              { balance := w.balance + payout
                lockedBalance := w.lockedBalance - bet.stake }
            transactions := st.transactions ++
              [⟨bet.userId, if result = .VOID then .BET_REFUND else .BET_PAYOUT, payout, bet.id⟩] }
        else
          { st with
            wallets := updateWallet st.wallets bet.userId fun w =>
              { w with lockedBalance := w.lockedBalance - bet.stake } }
      let liability := bet.potentialPayout - bet.stake
      let st := { st with
        exposure := fun s => if s = sid then st.exposure s - liability else st.exposure s }
      (st, { sum with settled := sum.settled + 1, totalPaid := sum.totalPaid + payout })

/-- One `(selectionId, result)` entry of the single-bet phase: settle every
ACTIVE bet on the selection, then zero the Position aggregate. -/
def settleSelection (acc : SettleState × SettlementSummary)
    (entry : ℕ × SettleResult) : SettleState × SettlementSummary :=
  let (st, sum) := acc
  let bets := st.bets.filter fun b => b.selectionId = entry.1 ∧ b.status = .ACTIVE
  let (st, sum) := bets.foldl (settleBetStep entry.1 entry.2) (st, sum)
  ({ st with positions := fun s => if s = entry.1 then 0 else st.positions s }, sum)

/-- Leg propagation phase: every PENDING parlay leg on a resolved selection
gets that selection's outcome (`prisma.parlayLeg.updateMany`). -/
def propagateLegs (st : SettleState) (results : List (ℕ × SettleResult)) :
    SettleState :=
  results.foldl
    (fun st entry =>
      { st with
        parlays := st.parlays.map fun p =>
          { p with
            legs := p.legs.map fun l =>
              if l.selectionId = entry.1 ∧ l.result = .PENDING then
                { l with result := legOutcomeOf entry.2 }
              else l } })
    st

/-- Decimal odds of a WON parlay leg, as recomputed inline by the parlay
payout loop (`leg.acceptedOdds >= 0 ? 1 + odds/100 : 1 + 100/|odds|`). -/
def parlayLegDecimal (acceptedOdds : ℚ) : ℚ :=
  if acceptedOdds ≥ 0 then 1 + acceptedOdds / 100 else 1 + 100 / |acceptedOdds|

/-- Combined decimal multiplier of a list of parlay legs. -/
def parlayCombinedDecimal (legs : List ParlayLeg) : ℚ :=
  legs.foldl (fun acc leg => acc * parlayLegDecimal leg.acceptedOdds) 1

/-- Body of the parlay-resolution loop of `settleEvent` (lines 151–231),
applied to the snapshot `parlay` fetched after leg propagation. -/
def settleParlayStep (acc : SettleState × SettlementSummary) (parlay : Parlay) :
    SettleState × SettlementSummary :=
  let (st, sum) := acc
  if parlay.legs.any (·.result = .PENDING) then (st, sum)
  else
    let stake := parlay.stake
    let wallet := lookupWallet st.wallets parlay.userId
    let hasLost := parlay.legs.any (·.result = .LOST)
    if hasLost then
      let st := { st with parlays := updateParlay st.parlays parlay.id .LOST none }
      match wallet with
      | some _ =>
          ({ st with
             wallets := updateWallet st.wallets parlay.userId fun w =>
               { w with lockedBalance := w.lockedBalance - stake } }, sum)
      | none => (st, sum)
    else
      let wonLegs := parlay.legs.filter (·.result = .WON)
      if wonLegs.length = 0 then
        let st := { st with parlays := updateParlay st.parlays parlay.id .VOIDED none }
        match wallet with
        | some _ =>
            ({ st with
               wallets := updateWallet st.wallets parlay.userId fun w =>
                 { balance := w.balance + stake
                   lockedBalance := w.lockedBalance - stake }
               transactions := st.transactions ++ [⟨parlay.userId, .BET_REFUND, stake, parlay.id⟩] },
             sum)
        | none => (st, sum)
      else
        let payout := toFixed2 (stake * parlayCombinedDecimal wonLegs)
        let st := { st with parlays := updateParlay st.parlays parlay.id .WON (some payout) }
        match wallet with
        | some _ =>
            ({ st with
               wallets := updateWallet st.wallets parlay.userId fun w =>
                 { balance := w.balance + payout
                   lockedBalance := w.lockedBalance - stake }
               transactions := st.transactions ++ [⟨parlay.userId, .BET_PAYOUT, payout, parlay.id⟩] },
             { sum with totalPaid := sum.totalPaid + payout })
        | none => (st, sum)

/-- `settleEvent`: the whole settlement run — single-bet phase over the
result map, leg propagation, then resolution of every affected parlay with
no remaining PENDING legs.  The result map `results` is the list of
`(selectionId, outcome)` entries. -/
def settleEvent (st : SettleState) (results : List (ℕ × SettleResult)) :
    SettleState × SettlementSummary :=
  let (st1, sum1) := results.foldl settleSelection (st, ⟨0, 0, []⟩)
  let st2 := propagateLegs st1 results
  let affected := results.map (·.1)
  let candidates := st2.parlays.filter fun p =>
    (p.status = ParlayStatus.PENDING ∨ p.status = ParlayStatus.ACTIVE) ∧
      p.legs.any fun l => affected.contains l.selectionId
  candidates.foldl settleParlayStep (st2, sum1)

/-! ## Helper lemmas -/

theorem jsRound_intCast (n : ℤ) : jsRound (n : ℚ) = n := by
  unfold jsRound
  rw [Int.floor_eq_iff]
  constructor
  · linarith
  · linarith

theorem jsRound_mono {x y : ℚ} (h : x ≤ y) : jsRound x ≤ jsRound y := by
  unfold jsRound
  exact Int.floor_le_floor (by linarith)

theorem toFixed2_mono {x y : ℚ} (h : x ≤ y) : toFixed2 x ≤ toFixed2 y := by
  unfold toFixed2
  have h1 := jsRound_mono (mul_le_mul_of_nonneg_right h (by norm_num : (0:ℚ) ≤ 100))
  have h2 : ((jsRound (x * 100) : ℚ)) ≤ ((jsRound (y * 100) : ℚ)) := by exact_mod_cast h1
  linarith

/-- `americanToDecimal` never falls below 1 (so implied probabilities are
well defined and payouts are nonnegative for nonnegative stakes). -/
theorem one_le_americanToDecimal (a : ℚ) : 1 ≤ americanToDecimal a := by
  unfold americanToDecimal
  split_ifs with h
  · linarith
  · have : (0:ℚ) ≤ 100 / |a| := by positivity
    linarith

/-- Probability round-trip reduces to the decimal round-trip: inverting the
implied probability recovers the decimal odds exactly. -/
theorem impliedProb_roundtrip_eq (x : ℚ) :
    impliedProbToOdds (oddsToImpliedProb x) = decimalToAmerican (americanToDecimal x) := by
  unfold impliedProbToOdds oddsToImpliedProb
  rw [one_div_one_div]

/-- C8, odds side, favourable case: exact round-trip for `o ≥ 100`. -/
theorem decimal_roundtrip_pos (o : ℤ) (h : 100 ≤ o) :
    decimalToAmerican (americanToDecimal (o : ℚ)) = o := by
  have h1 : (100:ℚ) ≤ (o:ℚ) := by exact_mod_cast h
  have hd : americanToDecimal (o:ℚ) = (o:ℚ)/100 + 1 := by
    unfold americanToDecimal
    rw [if_pos h1]
  rw [hd]
  unfold decimalToAmerican
  rw [if_pos (by linarith : (2:ℚ) ≤ (o:ℚ)/100 + 1)]
  have : ((o:ℚ)/100 + 1 - 1) * 100 = (o:ℚ) := by ring
  rw [this, jsRound_intCast]

/-- C8, odds side, unfavourable case: exact round-trip for `o ≤ -101`. -/
theorem decimal_roundtrip_neg (o : ℤ) (h : o ≤ -101) :
    decimalToAmerican (americanToDecimal (o : ℚ)) = o := by
  have h1 : (o:ℚ) ≤ -101 := by exact_mod_cast h
  have habs : |(o:ℚ)| = -(o:ℚ) := abs_of_neg (by linarith)
  have hne : (o:ℚ) ≠ 0 := by intro h0; rw [h0] at h1; norm_num at h1
  have hd : americanToDecimal (o:ℚ) = 100 / (-(o:ℚ)) + 1 := by
    unfold americanToDecimal
    rw [if_neg (by linarith), habs]
  rw [hd]
  unfold decimalToAmerican
  have hlt : 100 / (-(o:ℚ)) < 1 := by
    rw [div_lt_one (by linarith : (0:ℚ) < -(o:ℚ))]
    linarith
  rw [if_neg (by linarith)]
  have : -100 / (100 / (-(o:ℚ)) + 1 - 1) = (o:ℚ) := by
    field_simp
  rw [this, jsRound_intCast]

/-! ## Claim C8 — odds round-trip -/

/-- C8 (amended): for every valid American odds `o` other than `−100`, the
decimal round-trip `decimalToAmerican (americanToDecimal o)` and the
probability round-trip `impliedProbToOdds (oddsToImpliedProb o)` both return
`o` exactly.  At `o = −100` both return `+100` instead (the same decimal
price 2.0 written with the opposite sign), so the round-trip is exact on
valid odds except at that boundary. -/
theorem claim_C8_roundtrip (o : ℤ) (h : ValidOdds o) (hne : o ≠ -100) :
    decimalToAmerican (americanToDecimal (o : ℚ)) = o ∧
    impliedProbToOdds (oddsToImpliedProb (o : ℚ)) = o := by
  have hd : decimalToAmerican (americanToDecimal (o : ℚ)) = o := by
    rcases h with hpos | hneg
    · exact decimal_roundtrip_pos o hpos
    · exact decimal_roundtrip_neg o (by omega)
  exact ⟨hd, by rw [impliedProb_roundtrip_eq]; exact hd⟩

/-- C8 counterexample: `−100` is a valid American odds value, yet both
round-trips return `+100`, not `−100`; the gap of 200 points is not a
rounding artefact. -/
theorem claim_C8_roundtrip_cex :
    ValidOdds (-100) ∧
    decimalToAmerican (americanToDecimal ((-100 : ℤ) : ℚ)) = 100 ∧
    impliedProbToOdds (oddsToImpliedProb ((-100 : ℤ) : ℚ)) = 100 ∧
    (100 : ℤ) ≠ -100 := by
  refine ⟨Or.inr le_rfl, ?_, ?_, by decide⟩
  · norm_num [decimalToAmerican, americanToDecimal, jsRound]
  · norm_num [impliedProb_roundtrip_eq, decimalToAmerican, americanToDecimal, jsRound]

/-- Witness for `claim_C8_roundtrip` at `o = −110`. -/
theorem claim_C8_roundtrip_witness :
    ValidOdds (-110) ∧ (-110 : ℤ) ≠ -100 ∧
    (decimalToAmerican (americanToDecimal ((-110 : ℤ) : ℚ)) = -110 ∧
     impliedProbToOdds (oddsToImpliedProb ((-110 : ℤ) : ℚ)) = -110) :=
  ⟨by decide, by decide, claim_C8_roundtrip (-110) (by decide) (by decide)⟩

/-! ## Claim C1 — exposure cap -/

/-- C1 (amended): whenever consensus odds are available for the selection,
a projected exposure above `MAX_SELECTION_EXPOSURE` forces a REJECT —
regardless of the other inputs (the earlier stake/daily-limit checks also
only ever produce REJECT).  When consensus odds are missing the engine
counters at the fallback line without consulting exposure, so the cap does
not apply on that path (see the counterexample). -/
theorem claim_C1_exposure_cap (dailyStake exposure o stake : ℚ) (c : ℤ)
    (h : projectedExposure exposure o stake > MAX_SELECTION_EXPOSURE) :
    (evaluateBetRequest dailyStake (some c) exposure o stake).decision = .REJECT := by
  unfold projectedExposure at h
  simp only [evaluateBetRequest]
  split_ifs with h1 h2
  · rfl
  · rfl
  · rfl

/-- C1 counterexample: with no consensus odds cached for the selection, a
request that passes the stake and daily-stake precondition checks is
COUNTERed even though its projected exposure (50 090.91) exceeds the
50 000 cap — the claim's "never COUNTER" fails on the missing-consensus
path. -/
theorem claim_C1_exposure_cap_cex :
    ¬ (100 : ℚ) > MAX_BET_STAKE ∧ ¬ (0 : ℚ) + 100 > MAX_DAILY_STAKE ∧
    projectedExposure 50000 (-110) 100 > MAX_SELECTION_EXPOSURE ∧
    (evaluateBetRequest 0 none 50000 (-110) 100).decision = .COUNTER := by
  refine ⟨?_, ?_, ?_, ?_⟩
  · norm_num [MAX_BET_STAKE]
  · norm_num [MAX_DAILY_STAKE]
  · norm_num [projectedExposure, calcPayout, toFixed2, americanToDecimal, jsRound,
      MAX_SELECTION_EXPOSURE]
  · norm_num [evaluateBetRequest, counterOffer, reject, MAX_BET_STAKE, MAX_DAILY_STAKE]

/-- Witness for `claim_C1_exposure_cap`: concrete over-cap request is
rejected when consensus is present. -/
theorem claim_C1_exposure_cap_witness :
    projectedExposure 50000 (-110) 100 > MAX_SELECTION_EXPOSURE ∧
    (evaluateBetRequest 0 (some (-150)) 50000 (-110) 100).decision = .REJECT := by
  have h : projectedExposure 50000 (-110) 100 > MAX_SELECTION_EXPOSURE := by
    norm_num [projectedExposure, calcPayout, toFixed2, americanToDecimal, jsRound,
      MAX_SELECTION_EXPOSURE]
  exact ⟨h, claim_C1_exposure_cap 0 50000 (-110) 100 (-150) h⟩

/-! ## Claim C6 — missing consensus odds -/

/-- C6 (amended): when consensus odds are unavailable the engine never
rejects for missing data; the decision is COUNTER with a no-consensus
reason on both paths.  A parlay leg is countered at exactly −110, while
`evaluateBetRequest` feeds the −110 fallback through the counter-offer
pipeline (4 % margin, round to nearest 5), so the single-bet counter lands
at −120, not −110. -/
theorem claim_C6_no_consensus_counter (dailyStake exposure o stake : ℚ)
    (f : ℕ → Option ℤ) (leg : ParlayLegInput)
    (h1 : ¬ stake > MAX_BET_STAKE) (h2 : ¬ dailyStake + stake > MAX_DAILY_STAKE)
    (h3 : f leg.selectionId = none) :
    (evaluateBetRequest dailyStake none exposure o stake).decision = .COUNTER ∧
    (evaluateBetRequest dailyStake none exposure o stake).counterReason =
      some "No consensus odds available - offering standard line" ∧
    (evaluateBetRequest dailyStake none exposure o stake).acceptedOdds = -120 ∧
    priceLegs f [leg] =
      [⟨leg.selectionId, leg.requestedOdds, .COUNTER, -110,
        some "No consensus odds - standard line applied"⟩] := by
  refine ⟨?_, ?_, ?_, ?_⟩
  · simp [evaluateBetRequest, h1, h2, counterOffer]
  · simp [evaluateBetRequest, h1, h2, counterOffer]
  · simp only [evaluateBetRequest, if_neg h1, if_neg h2]
    norm_num [counterOffer, applyMargin, impliedProbToOdds, oddsToImpliedProb,
      americanToDecimal, decimalToAmerican, roundToNearest5, jsRound, PLATFORM_MARGIN]
  · simp [priceLegs, h3]

/-- C6 counterexample: for a single bet with no consensus data the
countered odds are −120, not the fixed fallback line −110 the claim
names (the −110 fallback is re-priced with the platform margin before
being offered). -/
theorem claim_C6_no_consensus_counter_cex :
    (evaluateBetRequest 0 none 0 (-110) 100).decision = .COUNTER ∧
    (evaluateBetRequest 0 none 0 (-110) 100).acceptedOdds = -120 ∧
    ¬ (evaluateBetRequest 0 none 0 (-110) 100).acceptedOdds = -110 := by
  have h : (evaluateBetRequest 0 none 0 (-110) 100).acceptedOdds = -120 := by
    simp only [evaluateBetRequest]
    norm_num [counterOffer, applyMargin, impliedProbToOdds, oddsToImpliedProb,
      americanToDecimal, decimalToAmerican, roundToNearest5, jsRound, PLATFORM_MARGIN,
      MAX_BET_STAKE, MAX_DAILY_STAKE]
  refine ⟨?_, h, ?_⟩
  · norm_num [evaluateBetRequest, counterOffer, MAX_BET_STAKE, MAX_DAILY_STAKE]
  · rw [h]; norm_num

/-- Witness for `claim_C6_no_consensus_counter` at a concrete request. -/
theorem claim_C6_no_consensus_counter_witness :
    (¬ (100:ℚ) > MAX_BET_STAKE) ∧ (¬ (0:ℚ) + 100 > MAX_DAILY_STAKE) ∧
    ((fun _ : ℕ => (none : Option ℤ)) 7 = none) ∧
    ((evaluateBetRequest 0 none 0 (-110) 100).decision = .COUNTER ∧
     (evaluateBetRequest 0 none 0 (-110) 100).counterReason =
       some "No consensus odds available - offering standard line" ∧
     (evaluateBetRequest 0 none 0 (-110) 100).acceptedOdds = -120 ∧
     priceLegs (fun _ => none) [⟨7, -110⟩] =
       [⟨7, -110, .COUNTER, -110, some "No consensus odds - standard line applied"⟩]) := by
  refine ⟨?_, ?_, rfl, ?_⟩
  · norm_num [MAX_BET_STAKE]
  · norm_num [MAX_DAILY_STAKE]
  · exact claim_C6_no_consensus_counter 0 0 (-110) 100 (fun _ => none) ⟨7, -110⟩
      (by norm_num [MAX_BET_STAKE]) (by norm_num [MAX_DAILY_STAKE]) rfl

/-! ## Claim C5 — parlay leg pricing -/

/-- C5: a parlay leg with consensus odds is ACCEPTed at the requested odds
when `edge ≥ 0.02`; COUNTERed at the linearly interpolated, rounded,
consensus-floored price (`interpolatedCounterOdds`, the spec's formula)
when `−0.05 ≤ edge < 0.02`, so the countered odds are never below the
consensus odds; and REJECTed when `edge < −0.05`. -/
theorem claim_C5_leg_pricing (o : ℚ) (c : ℤ) :
    (oddsToImpliedProb o - oddsToImpliedProb (c : ℚ) ≥ EDGE_ACCEPT_THRESHOLD →
      priceLeg o c = ⟨0, o, .ACCEPT, o, none⟩) ∧
    (EDGE_COUNTER_THRESHOLD ≤ oddsToImpliedProb o - oddsToImpliedProb (c : ℚ) →
      oddsToImpliedProb o - oddsToImpliedProb (c : ℚ) < EDGE_ACCEPT_THRESHOLD →
      (priceLeg o c).decision = .COUNTER ∧
      (priceLeg o c).acceptedOdds = (interpolatedCounterOdds o c : ℚ) ∧
      (c : ℚ) ≤ (priceLeg o c).acceptedOdds) ∧
    (oddsToImpliedProb o - oddsToImpliedProb (c : ℚ) < EDGE_COUNTER_THRESHOLD →
      (priceLeg o c).decision = .REJECT) := by
  refine ⟨?_, ?_, ?_⟩
  · intro h
    simp [priceLeg, h]
  · intro h1 h2
    have hna : ¬ (oddsToImpliedProb o - oddsToImpliedProb (c : ℚ) ≥ EDGE_ACCEPT_THRESHOLD) := by
      linarith
    have hc : oddsToImpliedProb o - oddsToImpliedProb (c : ℚ) ≥ EDGE_COUNTER_THRESHOLD := h1
    refine ⟨?_, ?_, ?_⟩
    · simp [priceLeg, hna, hc]
    · simp [priceLeg, hna, hc, interpolatedCounterOdds]
    · simp only [priceLeg, if_neg hna, if_pos hc]
      exact_mod_cast Int.cast_le.mpr (le_max_left c _)
  · intro h
    have hna : ¬ (oddsToImpliedProb o - oddsToImpliedProb (c : ℚ) ≥ EDGE_ACCEPT_THRESHOLD) := by
      unfold EDGE_ACCEPT_THRESHOLD EDGE_COUNTER_THRESHOLD at *
      linarith
    have hnc : ¬ (oddsToImpliedProb o - oddsToImpliedProb (c : ℚ) ≥ EDGE_COUNTER_THRESHOLD) := by
      linarith
    simp [priceLeg, hna, hnc]

/-- Witness for `claim_C5_leg_pricing`: consensus −150, request −150
(edge = 0, inside the counter band) is COUNTERed at the interpolated price,
floored at consensus. -/
theorem claim_C5_leg_pricing_witness :
    (EDGE_COUNTER_THRESHOLD ≤ oddsToImpliedProb (-150) - oddsToImpliedProb ((-150 : ℤ) : ℚ) ∧
     oddsToImpliedProb (-150) - oddsToImpliedProb ((-150 : ℤ) : ℚ) < EDGE_ACCEPT_THRESHOLD) ∧
    ((priceLeg (-150) (-150)).decision = .COUNTER ∧
     (priceLeg (-150) (-150)).acceptedOdds = (interpolatedCounterOdds (-150) (-150) : ℚ) ∧
     ((-150 : ℤ) : ℚ) ≤ (priceLeg (-150) (-150)).acceptedOdds) := by
  have h1 : EDGE_COUNTER_THRESHOLD ≤ oddsToImpliedProb (-150) - oddsToImpliedProb ((-150 : ℤ) : ℚ) := by
    norm_num [EDGE_COUNTER_THRESHOLD]
  have h2 : oddsToImpliedProb (-150) - oddsToImpliedProb ((-150 : ℤ) : ℚ) < EDGE_ACCEPT_THRESHOLD := by
    norm_num [EDGE_ACCEPT_THRESHOLD]
  exact ⟨⟨h1, h2⟩, (claim_C5_leg_pricing (-150) (-150)).2.1 h1 h2⟩

/-! ## Claim C4 — parlay combination -/

theorem foldl_mul_americanToDecimal (lrs : List ParlayLegResult) :
    lrs.foldl (fun acc leg => acc * americanToDecimal leg.acceptedOdds) 1 =
      (lrs.map fun l => americanToDecimal l.acceptedOdds).prod := by
  rw [List.prod_eq_foldl, List.foldl_map]

/-- C4: for a parlay request that passes validation, a REJECTed leg makes
the whole parlay REJECT with that leg's reason and zero combined odds and
payout; otherwise the combined American odds are `decimalToAmerican` of the
product of `americanToDecimal` of every leg's accepted odds, the potential
payout is the stake times that product rounded to cents, and the decision
is COUNTER exactly when some leg was countered, else ACCEPT. -/
theorem claim_C4_parlay_combination (dailyStake stake : ℚ) (f : ℕ → Option ℤ)
    (legs : List ParlayLegInput)
    (h1 : ¬ legs.length < 2) (h2 : ¬ legs.length > 12)
    (h3 : ¬ stake > MAX_BET_STAKE)
    (h4 : (legs.map (·.selectionId)).dedup.length = legs.length)
    (h5 : ¬ dailyStake + stake > MAX_DAILY_STAKE) :
    (∀ r, (priceLegs f legs).find? (·.decision = .REJECT) = some r →
      evaluateParlayRequest dailyStake f legs stake =
        ⟨.REJECT, priceLegs f legs, 0, 0,
         some (r.reason.getD "One or more legs were rejected")⟩) ∧
    ((priceLegs f legs).find? (·.decision = .REJECT) = none →
      evaluateParlayRequest dailyStake f legs stake =
        ⟨(if (priceLegs f legs).any (·.decision = .COUNTER) then .COUNTER else .ACCEPT),
         priceLegs f legs,
         decimalToAmerican (((priceLegs f legs).map fun l => americanToDecimal l.acceptedOdds).prod),
         toFixed2 (stake * ((priceLegs f legs).map fun l => americanToDecimal l.acceptedOdds).prod),
         none⟩) := by
  constructor
  · intro r hfind
    simp only [evaluateParlayRequest, if_neg h1, if_neg h2, if_neg h3,
      if_neg (not_not_intro h4), if_neg h5, hfind]
  · intro hfind
    simp only [evaluateParlayRequest, if_neg h1, if_neg h2, if_neg h3,
      if_neg (not_not_intro h4), if_neg h5, hfind, foldl_mul_americanToDecimal]

/-- Witness for `claim_C4_parlay_combination`: a two-leg parlay whose legs
both lack consensus (so both are COUNTERed, none rejected). -/
theorem claim_C4_parlay_combination_witness :
    (¬ ([(⟨1, -110⟩ : ParlayLegInput), ⟨2, -110⟩].length < 2)) ∧
    ((priceLegs (fun _ => none) [⟨1, -110⟩, ⟨2, -110⟩]).find? (·.decision = .REJECT) = none) ∧
    evaluateParlayRequest 0 (fun _ => none) [⟨1, -110⟩, ⟨2, -110⟩] 100 =
      ⟨(if (priceLegs (fun _ => none) [⟨1, -110⟩, ⟨2, -110⟩]).any (·.decision = .COUNTER)
          then .COUNTER else .ACCEPT),
       priceLegs (fun _ => none) [⟨1, -110⟩, ⟨2, -110⟩],
       decimalToAmerican (((priceLegs (fun _ => none) [⟨1, -110⟩, ⟨2, -110⟩]).map
         fun l => americanToDecimal l.acceptedOdds).prod),
       toFixed2 (100 * ((priceLegs (fun _ => none) [⟨1, -110⟩, ⟨2, -110⟩]).map
         fun l => americanToDecimal l.acceptedOdds).prod),
       none⟩ := by
  have hfind : (priceLegs (fun _ : ℕ => (none : Option ℤ)) [⟨1, -110⟩, ⟨2, -110⟩]).find?
      (·.decision = .REJECT) = none := by
    simp [priceLegs]
  refine ⟨by norm_num, hfind, ?_⟩
  exact (claim_C4_parlay_combination 0 100 (fun _ => none) [⟨1, -110⟩, ⟨2, -110⟩]
    (by norm_num) (by norm_num) (by norm_num [MAX_BET_STAKE])
    (by simp) (by norm_num [MAX_DAILY_STAKE])).2 hfind

/-! ## Claim C9 — ACCEPT is downward-closed in the requested odds -/

theorem validOdds_cast {o : ℤ} (h : ValidOdds o) :
    (100 : ℚ) ≤ (o : ℚ) ∨ (o : ℚ) ≤ -100 := by
  rcases h with h | h
  · left; exact_mod_cast h
  · right; exact_mod_cast h

/-- `americanToDecimal` is monotone on valid American odds. -/
theorem americanToDecimal_mono {a b : ℚ} (ha : 100 ≤ a ∨ a ≤ -100)
    (hb : 100 ≤ b ∨ b ≤ -100) (hab : a ≤ b) :
    americanToDecimal a ≤ americanToDecimal b := by
  unfold americanToDecimal
  rcases ha with ha | ha <;> rcases hb with hb | hb
  · rw [if_pos ha, if_pos hb]
    linarith
  · linarith
  · rw [if_neg (by linarith), if_pos hb, abs_of_neg (by linarith : a < 0)]
    have h1 : 100 / (-a) ≤ 1 := by
      rw [div_le_one (by linarith)]
      linarith
    have h2 : (1 : ℚ) ≤ b / 100 := by
      rw [le_div_iff₀ (by norm_num)]
      linarith
    linarith
  · rw [if_neg (by linarith), if_neg (by linarith),
      abs_of_neg (by linarith : a < 0), abs_of_neg (by linarith : b < 0)]
    have h1 : 100 / (-a) ≤ 100 / (-b) := by
      gcongr
      linarith
    linarith

/-- Implied probability is antitone on valid American odds. -/
theorem oddsToImpliedProb_anti {a b : ℚ} (ha : 100 ≤ a ∨ a ≤ -100)
    (hb : 100 ≤ b ∨ b ≤ -100) (hab : a ≤ b) :
    oddsToImpliedProb b ≤ oddsToImpliedProb a := by
  unfold oddsToImpliedProb
  have h1 : (1 : ℚ) ≤ americanToDecimal a := one_le_americanToDecimal a
  exact one_div_le_one_div_of_le (by linarith) (americanToDecimal_mono ha hb hab)

/-- Payout is monotone in the odds for a fixed nonnegative stake. -/
theorem calcPayout_mono {s a b : ℚ} (hs : 0 ≤ s) (ha : 100 ≤ a ∨ a ≤ -100)
    (hb : 100 ≤ b ∨ b ≤ -100) (hab : a ≤ b) :
    calcPayout s a ≤ calcPayout s b := by
  unfold calcPayout
  exact toFixed2_mono (mul_le_mul_of_nonneg_left (americanToDecimal_mono ha hb hab) hs)

/-- Characterization of the ACCEPT outcome of the single-bet engine when
consensus odds are present. -/
theorem evaluateBetRequest_accept_iff (dailyStake exposure o stake : ℚ) (c : ℤ) :
    (evaluateBetRequest dailyStake (some c) exposure o stake).decision = .ACCEPT ↔
      ¬ stake > MAX_BET_STAKE ∧ ¬ dailyStake + stake > MAX_DAILY_STAKE ∧
      oddsToImpliedProb o - oddsToImpliedProb (c : ℚ) ≥ EDGE_ACCEPT_THRESHOLD ∧
      ¬ projectedExposure exposure o stake >
        MAX_SELECTION_EXPOSURE * EXPOSURE_WARN_FRACTION := by
  have hwarn : MAX_SELECTION_EXPOSURE * EXPOSURE_WARN_FRACTION < MAX_SELECTION_EXPOSURE := by
    norm_num [MAX_SELECTION_EXPOSURE, EXPOSURE_WARN_FRACTION]
  simp only [evaluateBetRequest, projectedExposure]
  split_ifs with h1 h2 h3 h4 h5 h6
  · exact iff_of_false (by simp [reject]) fun h => h.1 h1
  · exact iff_of_false (by simp [reject]) fun h => h.2.1 h2
  · exact iff_of_false (by simp [reject]) fun h => h.2.2.2 (by linarith)
  · exact iff_of_true rfl ⟨h1, h2, h4.1, h4.2⟩
  · exact iff_of_false (by simp [counterOffer]) fun h => h4 ⟨h.2.2.1, h.2.2.2⟩
  · exact iff_of_false (by simp [counterOffer]) fun h => h4 ⟨h.2.2.1, h.2.2.2⟩
  · exact iff_of_false (by simp [reject]) fun h => h4 ⟨h.2.2.1, h.2.2.2⟩

/-- With no consensus odds cached, the engine never returns ACCEPT. -/
theorem evaluateBetRequest_none_ne_accept (dailyStake exposure o stake : ℚ) :
    (evaluateBetRequest dailyStake none exposure o stake).decision ≠ .ACCEPT := by
  simp only [evaluateBetRequest]
  split_ifs <;> simp [reject, counterOffer]

/-- C9: holding user, selection, stake, consensus, exposure, and daily
stake fixed, ACCEPT is downward-closed in the requested odds: if the engine
accepts at valid odds `o2`, it also accepts at any valid `o1 ≤ o2`. -/
theorem claim_C9_accept_monotone (dailyStake exposure stake : ℚ)
    (consensus : Option ℤ) (o1 o2 : ℤ) (hv1 : ValidOdds o1) (hv2 : ValidOdds o2)
    (hs : 0 ≤ stake) (hle : o1 ≤ o2)
    (hacc : (evaluateBetRequest dailyStake consensus exposure (o2 : ℚ) stake).decision = .ACCEPT) :
    (evaluateBetRequest dailyStake consensus exposure (o1 : ℚ) stake).decision = .ACCEPT := by
  cases consensus with
  | none => exact absurd hacc (evaluateBetRequest_none_ne_accept _ _ _ _)
  | some c =>
      rw [evaluateBetRequest_accept_iff] at hacc ⊢
      obtain ⟨hA, hB, hedge, hnear⟩ := hacc
      have hcast : ((o1 : ℚ) ≤ (o2 : ℚ)) := by exact_mod_cast hle
      have hprob := oddsToImpliedProb_anti (validOdds_cast hv1) (validOdds_cast hv2) hcast
      have hpay := calcPayout_mono hs (validOdds_cast hv1) (validOdds_cast hv2) hcast
      refine ⟨hA, hB, by linarith, ?_⟩
      unfold projectedExposure at hnear ⊢
      intro hgt
      exact hnear (by linarith)

/-- Witness for `claim_C9_accept_monotone`: consensus +100, stake 100; an
accepted request at −120 stays accepted at the less favourable −150. -/
theorem claim_C9_accept_monotone_witness :
    ValidOdds (-150) ∧ ValidOdds (-120) ∧ (0 : ℚ) ≤ 100 ∧ (-150 : ℤ) ≤ -120 ∧
    (evaluateBetRequest 0 (some 100) 0 ((-120 : ℤ) : ℚ) 100).decision = .ACCEPT ∧
    (evaluateBetRequest 0 (some 100) 0 ((-150 : ℤ) : ℚ) 100).decision = .ACCEPT := by
  have hacc : (evaluateBetRequest 0 (some 100) 0 ((-120 : ℤ) : ℚ) 100).decision = .ACCEPT := by
    norm_num [evaluateBetRequest, oddsToImpliedProb, americanToDecimal, calcPayout, toFixed2,
      jsRound, MAX_BET_STAKE, MAX_DAILY_STAKE, MAX_SELECTION_EXPOSURE,
      EXPOSURE_WARN_FRACTION, EDGE_ACCEPT_THRESHOLD]
  exact ⟨by decide, by decide, by norm_num, by decide, hacc,
    claim_C9_accept_monotone 0 0 100 (some 100) (-150) (-120)
      (by decide) (by decide) (by norm_num) (by decide) hacc⟩

/-! ## Settlement lemmas -/

theorem lookupWallet_updateWallet (ws : List (ℕ × Wallet)) (uid : ℕ) (f : Wallet → Wallet) :
    lookupWallet (updateWallet ws uid f) uid = (lookupWallet ws uid).map f := by
  induction ws with
  | nil => rfl
  | cons p t ih =>
      by_cases h : p.1 = uid
      · simp [lookupWallet, updateWallet, List.find?_cons, h]
      · simpa [lookupWallet, updateWallet, List.find?_cons, h] using ih

theorem toFixed2_nonneg {x : ℚ} (h : 0 ≤ x) : 0 ≤ toFixed2 x := by
  unfold toFixed2 jsRound
  have h1 : (0 : ℤ) ≤ ⌊x * 100 + 1/2⌋ := Int.le_floor.mpr (by push_cast; linarith)
  exact div_nonneg (by exact_mod_cast h1) (by norm_num)

theorem calcPayout_nonneg {s a : ℚ} (hs : 0 ≤ s) : 0 ≤ calcPayout s a :=
  toFixed2_nonneg (mul_nonneg hs (le_trans zero_le_one (one_le_americanToDecimal a)))

/-! ## Claim C2 — single-bet settlement conservation -/

/-- C2: per-bet effect of the settlement loop on the bet owner's wallet
(`settleBetStep` is the body of the per-bet loop of `settleEvent`): WON
credits exactly `calcPayout(stake, odds)` to the balance and releases the
stake from the locked balance; LOST leaves the balance unchanged and
releases the stake; VOID refunds exactly the stake and releases it. -/
theorem claim_C2_settlement_conservation (sid : ℕ) (r : SettleResult)
    (st : SettleState) (sum : SettlementSummary) (bet : Bet) (w : Wallet)
    (hw : lookupWallet st.wallets bet.userId = some w) (hs : 0 ≤ bet.stake) :
    (r = .WON →
      lookupWallet (settleBetStep sid r (st, sum) bet).1.wallets bet.userId =
        some ⟨w.balance + calcPayout bet.stake bet.odds, w.lockedBalance - bet.stake⟩) ∧
    (r = .LOST →
      lookupWallet (settleBetStep sid r (st, sum) bet).1.wallets bet.userId =
        some ⟨w.balance, w.lockedBalance - bet.stake⟩) ∧
    (r = .VOID →
      lookupWallet (settleBetStep sid r (st, sum) bet).1.wallets bet.userId =
        some ⟨w.balance + bet.stake, w.lockedBalance - bet.stake⟩) := by
  refine ⟨?_, ?_, ?_⟩ <;> intro hr <;> subst hr
  · have hp0 : 0 ≤ calcPayout bet.stake bet.odds := calcPayout_nonneg hs
    by_cases hp : calcPayout bet.stake bet.odds > 0
    · simp [settleBetStep, settlePayout, hw, hp, lookupWallet_updateWallet]
    · have hz : calcPayout bet.stake bet.odds = 0 := le_antisymm (not_lt.mp hp) hp0
      simp [settleBetStep, settlePayout, hw, hp, hz, lookupWallet_updateWallet]
  · simp [settleBetStep, settlePayout, hw, lookupWallet_updateWallet]
  · by_cases hp : bet.stake > 0
    · simp [settleBetStep, settlePayout, hw, hp, lookupWallet_updateWallet]
    · have hz : bet.stake = 0 := le_antisymm (not_lt.mp hp) hs
      simp [settleBetStep, settlePayout, hw, hp, hz, lookupWallet_updateWallet]

/-- Witness for `claim_C2_settlement_conservation`: a WON bet at −110 with
stake 100 on a wallet holding (1000, locked 200). -/
theorem claim_C2_settlement_conservation_witness :
    (lookupWallet ([(5, ⟨1000, 200⟩)] : List (ℕ × Wallet)) 5 = some ⟨1000, 200⟩) ∧
    ((0 : ℚ) ≤ 100) ∧
    (SettleResult.WON = .WON →
      lookupWallet (settleBetStep 3 .WON
        (⟨[], [], [(5, ⟨1000, 200⟩)], [], [], fun _ => 0, fun _ => 0⟩,
         ⟨0, 0, []⟩) ⟨1, 5, 3, 100, -110, 190.91, .ACTIVE⟩).1.wallets 5 =
        some ⟨1000 + calcPayout 100 (-110), 200 - 100⟩) := by
  have hw : lookupWallet ([(5, (⟨1000, 200⟩ : Wallet))] : List (ℕ × Wallet)) 5 =
      some ⟨1000, 200⟩ := rfl
  exact ⟨hw, by norm_num,
    (claim_C2_settlement_conservation 3 .WON
      ⟨[], [], [(5, ⟨1000, 200⟩)], [], [], fun _ => 0, fun _ => 0⟩ ⟨0, 0, []⟩
      ⟨1, 5, 3, 100, -110, 190.91, .ACTIVE⟩ ⟨1000, 200⟩ hw (by norm_num)).1⟩

/-! ## Claim C3 — parlay settlement -/

/-- The decimal odds recomputed inline in the parlay payout loop agree with
`americanToDecimal` on valid American odds. -/
theorem parlayLegDecimal_eq {o : ℚ} (h : 100 ≤ o ∨ o ≤ -100) :
    parlayLegDecimal o = americanToDecimal o := by
  unfold parlayLegDecimal americanToDecimal
  rcases h with h | h
  · rw [if_pos (by linarith), if_pos h]
    ring
  · rw [if_neg (by linarith), if_neg (by linarith)]
    ring

theorem parlayCombinedDecimal_eq_prod (legs : List ParlayLeg) :
    parlayCombinedDecimal legs = (legs.map fun l => parlayLegDecimal l.acceptedOdds).prod := by
  unfold parlayCombinedDecimal
  rw [List.prod_eq_foldl, List.foldl_map]

theorem parlayCombinedDecimal_eq (legs : List ParlayLeg)
    (h : ∀ l ∈ legs, 100 ≤ l.acceptedOdds ∨ l.acceptedOdds ≤ -100) :
    parlayCombinedDecimal legs = (legs.map fun l => americanToDecimal l.acceptedOdds).prod := by
  rw [parlayCombinedDecimal_eq_prod]
  congr 1
  exact List.map_congr_left fun l hl => parlayLegDecimal_eq (h l hl)

/-- C3: resolution of a parlay with no remaining PENDING legs
(`settleParlayStep` is the body of the parlay loop of `settleEvent`):
any LOST leg marks the parlay LOST and only releases the locked stake (no
balance credit, no transaction); no LOST leg and at least one WON leg marks
it WON and pays `stake ×` (product of `americanToDecimal` over the WON legs
only — VOID legs excluded), rounded to cents, crediting the balance and
releasing the lock; all legs VOID marks it VOIDED and refunds the stake in
full. -/
theorem claim_C3_parlay_resolution (st : SettleState) (sum : SettlementSummary)
    (p : Parlay) (w : Wallet)
    (hw : lookupWallet st.wallets p.userId = some w)
    (hnp : p.legs.any (·.result = .PENDING) = false)
    (hv : ∀ l ∈ p.legs, l.result = .WON →
      (100 ≤ l.acceptedOdds ∨ l.acceptedOdds ≤ -100)) :
    (p.legs.any (·.result = .LOST) = true →
      (settleParlayStep (st, sum) p).1.parlays = updateParlay st.parlays p.id .LOST none ∧
      lookupWallet (settleParlayStep (st, sum) p).1.wallets p.userId =
        some ⟨w.balance, w.lockedBalance - p.stake⟩ ∧
      (settleParlayStep (st, sum) p).1.transactions = st.transactions) ∧
    (p.legs.any (·.result = .LOST) = false →
      p.legs.filter (·.result = .WON) ≠ [] →
      (settleParlayStep (st, sum) p).1.parlays =
        updateParlay st.parlays p.id .WON (some (toFixed2 (p.stake *
          ((p.legs.filter (·.result = .WON)).map fun l => americanToDecimal l.acceptedOdds).prod))) ∧
      lookupWallet (settleParlayStep (st, sum) p).1.wallets p.userId =
        some ⟨w.balance + toFixed2 (p.stake *
          ((p.legs.filter (·.result = .WON)).map fun l => americanToDecimal l.acceptedOdds).prod),
          w.lockedBalance - p.stake⟩) ∧
    ((∀ l ∈ p.legs, l.result = .VOID) →
      (settleParlayStep (st, sum) p).1.parlays = updateParlay st.parlays p.id .VOIDED none ∧
      lookupWallet (settleParlayStep (st, sum) p).1.wallets p.userId =
        some ⟨w.balance + p.stake, w.lockedBalance - p.stake⟩) := by
  have hprod : parlayCombinedDecimal (p.legs.filter (·.result = .WON)) =
      ((p.legs.filter (·.result = .WON)).map fun l => americanToDecimal l.acceptedOdds).prod :=
    parlayCombinedDecimal_eq _ fun l hl =>
      hv l (List.mem_of_mem_filter hl) (by simpa using (List.mem_filter.mp hl).2)
  refine ⟨?_, ?_, ?_⟩
  · intro hlost
    simp [settleParlayStep, hnp, hlost, hw, lookupWallet_updateWallet]
  · intro hlost hwon
    have hlen : ¬ (p.legs.filter (·.result = .WON)).length = 0 := by
      simpa [List.length_eq_zero] using hwon
    simp [settleParlayStep, hnp, hlost, hlen, hw, lookupWallet_updateWallet, hprod]
  · intro hall
    have hlost : p.legs.any (·.result = .LOST) = false := by
      simp only [List.any_eq_false, decide_eq_true_eq]
      intro l hl
      rw [hall l hl]
      simp
    have hwon : p.legs.filter (·.result = .WON) = [] := by
      rw [List.filter_eq_nil_iff]
      intro l hl
      rw [hall l hl]
      simp
    simp [settleParlayStep, hnp, hlost, hwon, hw, lookupWallet_updateWallet]

/-- Witness for `claim_C3_parlay_resolution`: the spec's 3-leg WON/WON/VOID
example — the payout multiplier uses only the two WON legs. -/
theorem claim_C3_parlay_resolution_witness :
    (lookupWallet ([(5, ⟨1000, 200⟩)] : List (ℕ × Wallet)) 5 = some ⟨1000, 200⟩) ∧
    (([(⟨1, -110, .WON⟩ : ParlayLeg), ⟨2, 150, .WON⟩, ⟨3, -200, .VOID⟩].any
      (·.result = .PENDING)) = false) ∧
    (([(⟨1, -110, .WON⟩ : ParlayLeg), ⟨2, 150, .WON⟩, ⟨3, -200, .VOID⟩].any
      (·.result = .LOST)) = false) ∧
    ((settleParlayStep
        (⟨[], [⟨9, 5, 100, 0, .ACTIVE, [⟨1, -110, .WON⟩, ⟨2, 150, .WON⟩, ⟨3, -200, .VOID⟩]⟩],
          [(5, ⟨1000, 200⟩)], [], [], fun _ => 0, fun _ => 0⟩, ⟨0, 0, []⟩)
        ⟨9, 5, 100, 0, .ACTIVE, [⟨1, -110, .WON⟩, ⟨2, 150, .WON⟩, ⟨3, -200, .VOID⟩]⟩).1.parlays =
      updateParlay [⟨9, 5, 100, 0, .ACTIVE, [⟨1, -110, .WON⟩, ⟨2, 150, .WON⟩, ⟨3, -200, .VOID⟩]⟩]
        9 .WON (some (toFixed2 (100 *
          (([(⟨1, -110, .WON⟩ : ParlayLeg), ⟨2, 150, .WON⟩, ⟨3, -200, .VOID⟩].filter
            (·.result = .WON)).map fun l => americanToDecimal l.acceptedOdds).prod)))) := by
  have hw : lookupWallet ([(5, (⟨1000, 200⟩ : Wallet))] : List (ℕ × Wallet)) 5 =
      some ⟨1000, 200⟩ := rfl
  refine ⟨hw, by simp, by simp, ?_⟩
  exact ((claim_C3_parlay_resolution
    ⟨[], [⟨9, 5, 100, 0, .ACTIVE, [⟨1, -110, .WON⟩, ⟨2, 150, .WON⟩, ⟨3, -200, .VOID⟩]⟩],
      [(5, ⟨1000, 200⟩)], [], [], fun _ => 0, fun _ => 0⟩ ⟨0, 0, []⟩
    ⟨9, 5, 100, 0, .ACTIVE, [⟨1, -110, .WON⟩, ⟨2, 150, .WON⟩, ⟨3, -200, .VOID⟩]⟩
    ⟨1000, 200⟩ hw (by simp)
    (by intro l hl hr; fin_cases hl <;> simp_all <;> norm_num)).2.1
    (by simp) (by simp)).1

/-! ## Claim C7 — per-bet failure isolation -/

/-- C7 (amended): a per-bet failure (the missing wallet the source checks
for) never aborts the run: the error is appended to the summary, the
settled count and total paid are untouched, the wallets and exposure are
untouched, and processing continues (the engine is a total function that
always returns a summary).  However the failed bet's own records are NOT
left unchanged: its status has already been updated and its settlement
record written by the time the wallet check runs; only the wallet movement,
the exposure decrement, and the summary counters are skipped. -/
theorem claim_C7_partial_failure (sid : ℕ) (r : SettleResult) (st : SettleState)
    (sum : SettlementSummary) (bet : Bet)
    (hw : lookupWallet st.wallets bet.userId = none) :
    (settleBetStep sid r (st, sum) bet).2.errors = sum.errors ++ ["No wallet for user"] ∧
    (settleBetStep sid r (st, sum) bet).2.settled = sum.settled ∧
    (settleBetStep sid r (st, sum) bet).2.totalPaid = sum.totalPaid ∧
    (settleBetStep sid r (st, sum) bet).1.wallets = st.wallets ∧
    (settleBetStep sid r (st, sum) bet).1.exposure = st.exposure ∧
    (settleBetStep sid r (st, sum) bet).1.bets =
      updateBetStatus st.bets bet.id (betStatusOf r) ∧
    (settleBetStep sid r (st, sum) bet).1.settlements =
      st.settlements ++ [⟨bet.id, r, settlePayout r bet.stake bet.odds⟩] := by
  simp [settleBetStep, hw]

/-- C7 counterexample: a full `settleEvent` run over a single ACTIVE bet
whose user has no wallet.  The run does not abort and reports the error,
but the failed bet's records are not left unchanged: its status has moved
to WON and a settlement record now exists. -/
theorem claim_C7_partial_failure_cex :
    ((settleEvent ⟨[⟨1, 5, 3, 100, -110, (190.91 : ℚ), .ACTIVE⟩], [], [], [], [],
        fun _ => 0, fun _ => 0⟩ [(3, .WON)]).2.errors = ["No wallet for user"]) ∧
    ((settleEvent ⟨[⟨1, 5, 3, 100, -110, (190.91 : ℚ), .ACTIVE⟩], [], [], [], [],
        fun _ => 0, fun _ => 0⟩ [(3, .WON)]).2.settled = 0) ∧
    ((settleEvent ⟨[⟨1, 5, 3, 100, -110, (190.91 : ℚ), .ACTIVE⟩], [], [], [], [],
        fun _ => 0, fun _ => 0⟩ [(3, .WON)]).1.bets =
      [⟨1, 5, 3, 100, -110, (190.91 : ℚ), .WON⟩]) ∧
    ((settleEvent ⟨[⟨1, 5, 3, 100, -110, (190.91 : ℚ), .ACTIVE⟩], [], [], [], [],
        fun _ => 0, fun _ => 0⟩ [(3, .WON)]).1.settlements =
      [⟨1, .WON, calcPayout 100 (-110)⟩]) ∧
    ([(⟨1, 5, 3, 100, -110, (190.91 : ℚ), .WON⟩ : Bet)] ≠
      [⟨1, 5, 3, 100, -110, (190.91 : ℚ), .ACTIVE⟩]) := by
  refine ⟨?_, ?_, ?_, ?_, ?_⟩ <;>
    simp [settleEvent, settleSelection, settleBetStep, propagateLegs, updateBetStatus,
      lookupWallet, settlePayout, betStatusOf]

/-- Witness for `claim_C7_partial_failure` at a concrete missing-wallet
bet. -/
theorem claim_C7_partial_failure_witness :
    (lookupWallet ([] : List (ℕ × Wallet)) 5 = none) ∧
    ((settleBetStep 3 .WON
        (⟨[⟨1, 5, 3, 100, -110, (190.91 : ℚ), .ACTIVE⟩], [], [], [], [],
          fun _ => 0, fun _ => 0⟩, ⟨0, 0, []⟩)
        ⟨1, 5, 3, 100, -110, (190.91 : ℚ), .ACTIVE⟩).2.errors =
      [] ++ ["No wallet for user"]) := by
  have hw : lookupWallet ([] : List (ℕ × Wallet)) 5 = none := rfl
  exact ⟨hw, (claim_C7_partial_failure 3 .WON
    ⟨[⟨1, 5, 3, 100, -110, (190.91 : ℚ), .ACTIVE⟩], [], [], [], [],
      fun _ => 0, fun _ => 0⟩ ⟨0, 0, []⟩
    ⟨1, 5, 3, 100, -110, (190.91 : ℚ), .ACTIVE⟩ hw).1⟩

/-! ## Claim C10 — the `settled` counter and `totalPaid` for parlays -/

theorem settleParlayStep_settled (acc : SettleState × SettlementSummary) (p : Parlay) :
    (settleParlayStep acc p).2.settled = acc.2.settled := by
  obtain ⟨st, sum⟩ := acc
  simp only [settleParlayStep]
  rcases hW : lookupWallet st.wallets p.userId with _ | w <;>
    split_ifs <;> simp [hW]

theorem foldl_settleParlayStep_settled (ps : List Parlay)
    (acc : SettleState × SettlementSummary) :
    (ps.foldl settleParlayStep acc).2.settled = acc.2.settled := by
  induction ps generalizing acc with
  | nil => rfl
  | cons p t ih => rw [List.foldl_cons, ih, settleParlayStep_settled]

theorem settleEvent_settled (st : SettleState) (results : List (ℕ × SettleResult)) :
    (settleEvent st results).2.settled =
      (results.foldl settleSelection (st, ⟨0, 0, []⟩)).2.settled := by
  rcases hX : results.foldl settleSelection (st, ⟨0, 0, []⟩) with ⟨st1, sum1⟩
  simp only [settleEvent, hX, foldl_settleParlayStep_settled]

theorem settleParlayStep_totalPaid_no_wallet (st : SettleState)
    (sum : SettlementSummary) (p : Parlay)
    (hw : lookupWallet st.wallets p.userId = none) :
    (settleParlayStep (st, sum) p).2.totalPaid = sum.totalPaid := by
  simp only [settleParlayStep, hw]
  split_ifs <;> rfl

/-- C10: the `settled` field of the summary counts only single bets — the
whole parlay phase of `settleEvent` leaves `settled` exactly as the
single-bet phase produced it, and each parlay resolution step preserves it;
moreover a resolved parlay contributes to `totalPaid` only when its user
has a wallet (with no wallet, `totalPaid` is unchanged). -/
theorem claim_C10_settled_and_totalPaid (st : SettleState)
    (results : List (ℕ × SettleResult)) (sum : SettlementSummary) (p : Parlay) :
    ((settleEvent st results).2.settled =
      (results.foldl settleSelection (st, ⟨0, 0, []⟩)).2.settled) ∧
    ((settleParlayStep (st, sum) p).2.settled = sum.settled) ∧
    (lookupWallet st.wallets p.userId = none →
      (settleParlayStep (st, sum) p).2.totalPaid = sum.totalPaid) :=
  ⟨settleEvent_settled st results, settleParlayStep_settled (st, sum) p,
   settleParlayStep_totalPaid_no_wallet st sum p⟩

/-- Witness for `claim_C10_settled_and_totalPaid` on a concrete walletless
WON parlay. -/
theorem claim_C10_settled_and_totalPaid_witness :
    (lookupWallet ([] : List (ℕ × Wallet)) 5 = none) ∧
    ((settleParlayStep
        (⟨[], [⟨9, 5, 100, 0, .ACTIVE, [⟨1, -110, .WON⟩]⟩], [], [], [],
          fun _ => 0, fun _ => 0⟩, ⟨2, 300, []⟩)
        ⟨9, 5, 100, 0, .ACTIVE, [⟨1, -110, .WON⟩]⟩).2.totalPaid = 300) ∧
    ((settleParlayStep
        (⟨[], [⟨9, 5, 100, 0, .ACTIVE, [⟨1, -110, .WON⟩]⟩], [], [], [],
          fun _ => 0, fun _ => 0⟩, ⟨2, 300, []⟩)
        ⟨9, 5, 100, 0, .ACTIVE, [⟨1, -110, .WON⟩]⟩).2.settled = 2) := by
  have h := claim_C10_settled_and_totalPaid
    ⟨[], [⟨9, 5, 100, 0, .ACTIVE, [⟨1, -110, .WON⟩]⟩], [], [], [], fun _ => 0, fun _ => 0⟩
    [] ⟨2, 300, []⟩ ⟨9, 5, 100, 0, .ACTIVE, [⟨1, -110, .WON⟩]⟩
  exact ⟨rfl, h.2.2 rfl, h.2.1⟩

end FourTen
